import Mathlib

/-!
Verification of the flag-resolution pipeline of a YouCompleteMe configuration
template (`template.py`).  The Python module is shallowly embedded: each
Python function becomes a Lean definition of the same name, pure functions map
directly, and the interactions with the operating system (`os.path.exists`,
`os.walk`, `glob.glob`, the `ycm_core` compilation database, the compiler
subprocess) are modelled by explicit parameters: an existence oracle, a
directory tree, a glob-result list, a total database function, and the
captured compiler output text.

Strings are modelled by Lean `String` (a wrapper around `List Char`); the
Python string primitives used by the module (`startswith`, slicing,
`os.path.join`, `os.path.splitext`, `os.path.split`, `os.path.basename`,
`str.strip`, `str.lower`, `in`/`find`) are given explicit definitions below,
each following the CPython (posixpath) implementation.
-/

set_option autoImplicit false

namespace Ycm

/-- Python `s.startswith(pre)`: `pre.data` is a prefix of `s.data`. -/
def pyStartswith (s pre : String) : Bool :=
  decide (pre.data <+: s.data)

/-- Python `s.lower()` (ASCII case folding, which is all the module needs:
every extension involved is ASCII). -/
def pyLower (s : String) : String :=
  ⟨s.data.map Char.toLower⟩

/-- Python `sub in s` / `s.find(sub) >= 0`: substring containment. -/
def pyContains (s sub : String) : Bool :=
  decide (sub.data <:+: s.data)

/-- The characters Python `str.strip()` removes (ASCII whitespace). -/
def pySpaceChar (c : Char) : Bool :=
  c == ' ' || c == '\t' || c == '\n' || c == '\r' || c == '\x0b' || c == '\x0c'

/-- Python `s.strip()`: remove leading and trailing whitespace. -/
def pyStrip (s : String) : String :=
  ⟨((s.data.dropWhile pySpaceChar).reverse.dropWhile pySpaceChar).reverse⟩

/-- Python `s[n:]` for a nonnegative `n`. -/
def pyDrop (s : String) (n : Nat) : String :=
  ⟨s.data.drop n⟩

/-- Python `s.split(c)` for a single-character separator: split at every
occurrence, keeping empty segments (structurally recursive, unlike the
core-library splitter). -/
def splitOnChar (c : Char) : List Char → List (List Char)
  | [] => [[]]
  | x :: rest =>
    match splitOnChar c rest with
    | [] => [[]]
    | h :: t => if x = c then [] :: h :: t else (x :: h) :: t

/-- Index of the last occurrence of character `c` in `l`
(Python `str.rfind` restricted to single-character needles),
`none` when absent (Python returns `-1`). -/
def rfindChar (l : List Char) (c : Char) : Option Nat :=
  (l.reverse.findIdx? (· == c)).map (fun j => l.length - 1 - j)

/-- CPython `posixpath.join` restricted to two components:
if `b` is absolute it replaces `a`; otherwise it is appended,
inserting a `/` unless `a` is empty or already ends with `/`. -/
def osPathJoin (a b : String) : String :=
  if pyStartswith b "/" then b
  else if a = "" || a.data.getLast? == some '/' then a ++ b
  else a ++ "/" ++ b

/-- Start of the final path component: one past the last `/`, or `0` when
there is no separator (CPython's `sepIndex + 1`). -/
def splitextFilenameStart (p : String) : Nat :=
  match rfindChar p.data '/' with
  | none => 0
  | some sep => sep + 1

/-- CPython `posixpath.splitext`: split off the extension at the last dot of
the last path component, provided some earlier character of that component is
not a dot (so dotfiles such as `.bashrc` have no extension). -/
def splitext (p : String) : String × String :=
  match rfindChar p.data '.' with
  | none => (p, "")
  | some dot =>
    if splitextFilenameStart p ≤ dot ∧
        ((p.data.drop (splitextFilenameStart p)).take
          (dot - splitextFilenameStart p)).any (· ≠ '.') then
      (⟨p.data.take dot⟩, ⟨p.data.drop dot⟩)
    else
      (p, "")

/-- CPython `posixpath.split`: split at the final `/`; trailing slashes are
stripped from the head unless the head consists only of slashes. -/
def ospathSplit (p : String) : String × String :=
  let l := p.data
  let i := match rfindChar l '/' with
    | none => 0
    | some j => j + 1
  let head := l.take i
  let tail := l.drop i
  let head := if head.isEmpty || head.all (· == '/') then head
              else (head.reverse.dropWhile (· == '/')).reverse
  (⟨head⟩, ⟨tail⟩)

/-- CPython `posixpath.basename`: everything after the final `/`. -/
def pyBasename (p : String) : String :=
  let l := p.data
  match rfindChar l '/' with
  | none => p
  | some j => ⟨l.drop (j + 1)⟩

/-! ### Constants of the module (`SOURCE_EXTENSIONS`, `HEADER_EXTENSIONS`) -/

def SOURCE_EXTENSIONS : List String := [".cpp", ".cxx", ".cc", ".c", ".m", ".mm"]

def HEADER_EXTENSIONS : List String := [".h", ".hxx", ".hpp", ".hh"]

/-! ### `MakeRelativePathsInFlagsAbsolute`

The Python function scans the flag list with one bit of lookahead state
(`make_next_absolute`); for each token it first applies the pending lookahead
rewrite, then runs an inner loop over `path_flags` that `break`s on the first
path flag the token equals (setting the lookahead bit) or starts with
(overwriting the token with `path_flag + os.path.join(wd, suffix)`, computed
from the original token).  Tokens whose final form is falsy (the empty
string) are not appended. -/

def path_flags : List String := ["-isystem", "-I", "-iquote", "--sysroot="]

/-- Outcome of the inner `for path_flag in path_flags` loop for one token. -/
inductive FlagMatch where
  | exact
  | split (p : String)
  | noMatch
  deriving DecidableEq, Repr

/-- The inner loop of `MakeRelativePathsInFlagsAbsolute`: try each path flag
in order; `break` on equality (lookahead rule) or on a prefix match
(split rule). -/
def matchPathFlag : List String → String → FlagMatch
  | [], _ => .noMatch
  | p :: rest, flag =>
    if flag = p then .exact
    else if pyStartswith flag p then .split p
    else matchPathFlag rest flag

/-- Python `if new_flag: new_flags.append(new_flag)` (empty string is falsy). -/
def consIfNonempty (s : String) (l : List String) : List String :=
  if s = "" then l else s :: l

/-- The `for flag in flags` loop of `MakeRelativePathsInFlagsAbsolute`,
with the `make_next_absolute` state made explicit. -/
def mrpifaGo (wd : String) : List String → Bool → List String
  | [], _ => []
  | flag :: rest, makeNext =>
    let nf1 := if makeNext && !pyStartswith flag "/" then osPathJoin wd flag else flag
    match matchPathFlag path_flags flag with
    | .exact => consIfNonempty nf1 (mrpifaGo wd rest true)
    | .split p => consIfNonempty (p ++ osPathJoin wd (pyDrop flag p.length))
        (mrpifaGo wd rest false)
    | .noMatch => consIfNonempty nf1 (mrpifaGo wd rest false)

/-- `MakeRelativePathsInFlagsAbsolute(flags, working_directory)`:
a falsy (empty) working directory returns the list unchanged (the Python
code returns a fresh copy); otherwise the stateful scan above. -/
def MakeRelativePathsInFlagsAbsolute (flags : List String) (working_directory : String) :
    List String :=
  if working_directory = "" then flags
  else mrpifaGo working_directory flags false

/-! ### `LoadSystemIncludes`

The Python function runs `clang -v -E -x c++ -`, concatenates stdout and
stderr into one text, and applies the regular expression
`(?:\#include \<...\> search starts here\:)(?P<list>.*?)(?:End of search list)`
with `re.DOTALL`.  Note that the three dots in `\<...\>` are *unescaped* in
the pattern, so they match any three characters.  `re.search` finds the
leftmost match and the lazy group ends at the earliest following end marker.
The subprocess round trip is external; the embedding takes the captured
output text as its argument.  A failed search is modelled as `none`
(in Python, `.group` on `None` raises). -/

/-- Try to match the start-marker pattern at the head of `l`:
the literal `#include <`, then any three characters (the unescaped regex
dots, which under DOTALL match any character), then the literal
`> search starts here:`.  On success return the remainder of the text. -/
def matchStartMarker (l : List Char) : Option (List Char) :=
  let pre := "#include <".data
  let post := "> search starts here:".data
  if decide (pre <+: l) then
    match l.drop pre.length with
    | _ :: _ :: _ :: r2 =>
      if decide (post <+: r2) then some (r2.drop post.length) else none
    | _ => none
  else none

/-- Scan left to right for the first position where the start-marker pattern
matches; return the text after the match. -/
def afterStartMarker : List Char → Option (List Char)
  | [] => none
  | c :: rest =>
    match matchStartMarker (c :: rest) with
    | some r => some r
    | none => afterStartMarker rest

/-- Take the text up to the first occurrence of `End of search list`
(the lazy group of the regex); `none` if the end marker never occurs. -/
def uptoEndMarker : List Char → Option (List Char)
  | [] => none
  | c :: rest =>
    if decide ("End of search list".data <+: (c :: rest)) then some []
    else (uptoEndMarker rest).map (c :: ·)

/-- The `re.search(...).group('list')` step: the region between the two
markers, leftmost match, lazy group. -/
def extractSearchList (output : String) : Option String :=
  (afterStartMarker output.data).bind fun r =>
    (uptoEndMarker r).map fun region => (⟨region⟩ : String)

/-- The `for p in ....split('\n')` loop: strip each line, keep it when it is
nonempty and does not contain `(framework directory)`, and append the token
pair `-isystem`, line. -/
def includesLoop : List String → List String
  | [] => []
  | line :: rest =>
    let p := pyStrip line
    if p.length > 0 && !pyContains p "(framework directory)" then
      "-isystem" :: p :: includesLoop rest
    else
      includesLoop rest

/-- `LoadSystemIncludes()`, as a function of the captured compiler output.
`none` models the exception raised when the markers are not found. -/
def LoadSystemIncludes (output : String) : Option (List String) :=
  (extractSearchList output).map fun region =>
    includesLoop ((splitOnChar '\n' region.data).map fun l => (⟨l⟩ : String))

/-! ### Header classification and the compilation database adapter -/

/-- `IsHeaderFile(filename)`: lowercased extension is in `HEADER_EXTENSIONS`. -/
def IsHeaderFile (filename : String) : Bool :=
  HEADER_EXTENSIONS.contains (pyLower (splitext filename).2)

/-- The record `ycm_core.CompilationDatabase.GetCompilationInfoForFile`
returns: a flag list plus the working directory of the compilation.
The real object is never `None`; a file unknown to the database yields a
record with an empty flag list. -/
structure CompilationInfo where
  compiler_flags_ : List String
  compiler_working_dir_ : String
  deriving DecidableEq, Repr

/-- The compilation database is modelled as a total lookup function,
matching the `ycm_core` contract. -/
abbrev Database : Type := String → CompilationInfo

/-- The `for extension in SOURCE_EXTENSIONS` loop of
`GetCompilationInfoForFile`: substitute each source extension onto the
extension-stripped path; on the first substituted path that exists on disk
*and* whose record has a non-empty flag list, return that record; when the
record's flag list is empty the loop continues with the next extension. -/
def headerSearch (db : Database) (exists_ : String → Bool) (basename : String) :
    List String → Option CompilationInfo
  | [] => none
  | ext :: rest =>
    let replacement_file := basename ++ ext
    if exists_ replacement_file then
      let compilation_info := db replacement_file
      if compilation_info.compiler_flags_ ≠ [] then some compilation_info
      else headerSearch db exists_ basename rest
    else headerSearch db exists_ basename rest

/-- `GetCompilationInfoForFile(filename)`: `None` without a database; for a
header, run the substitution loop on the extension-stripped path; for a
source file, query the database directly.  `exists_` models
`os.path.exists`. -/
def GetCompilationInfoForFile (database : Option Database) (exists_ : String → Bool)
    (filename : String) : Option CompilationInfo :=
  match database with
  | none => none
  | some db =>
    if IsHeaderFile filename then
      headerSearch db exists_ (splitext filename).1 SOURCE_EXTENSIONS
    else
      some (db filename)

/-! ### `FlagsForFile` -/

/-- The dictionary `FlagsForFile` returns: a flag list and the `do_cache`
memoization hint. -/
structure FlagsResult where
  flags : List String
  do_cache : Bool
  deriving DecidableEq, Repr

/-- The module-level state `FlagsForFile` reads: the optional database
handle, the `os.path.exists` oracle, the module-level `flags` list (static
flags, plus guessed include flags, plus system includes, as assembled when
the module loads), the memoized `system_includes`, and the anchor directory
`DirectoryOfThisScript()`. -/
structure ModuleState where
  database : Option Database
  fileExists : String → Bool
  flags : List String
  system_includes : List String
  scriptDir : String

/-- `FlagsForFile(filename, **kwargs)`: with a database, look the file up and
return `None` exactly when the lookup does; otherwise absolutize the record's
flags against its working directory and append the system includes.  Without
a database, absolutize the module-level flags against the script directory.
The returned dictionary always carries `do_cache = True`. -/
def FlagsForFile (st : ModuleState) (filename : String) : Option FlagsResult :=
  match st.database with
  | some db =>
    match GetCompilationInfoForFile (some db) st.fileExists filename with
    | none => none
    | some compilation_info =>
      some ⟨MakeRelativePathsInFlagsAbsolute compilation_info.compiler_flags_
              compilation_info.compiler_working_dir_ ++ st.system_includes, true⟩
  | none =>
    some ⟨MakeRelativePathsInFlagsAbsolute st.flags st.scriptDir, true⟩

/-! ### `GuessBuildDirectory`

`os.path.exists` and `glob.glob` are OS calls, passed in as an oracle and as
the list of matches of the pattern
`os.path.join(DirectoryOfThisScript(), '..', '..', '*', 'compile_commands.json')`. -/

/-- `GuessBuildDirectory()`: return `<anchor>/build` when it exists;
otherwise the parent of the unique glob match; raise `OSError` (modelled by
`Except.error`) when there are zero or several matches. -/
def GuessBuildDirectory (anchor : String) (exists_ : String → Bool)
    (globMatches : List String) : Except String String :=
  let result := osPathJoin anchor "build"
  if exists_ result then .ok result
  else
    match globMatches with
    | [m] => .ok (ospathSplit m).1
    | _ => .error "Build directory cannot be guessed."

/-! ### Directory tree model

`GuessSourceDirectory`, `GuessIncludeDirectory` and `TraverseByDepth` consult
the filesystem through `os.path.exists` and `os.walk`, always at paths under
the anchor directory (`DirectoryOfThisScript()`).  The filesystem is modelled
by the anchor's absolute path together with a finite directory tree of its
contents; `os.walk` becomes the top-down depth-first enumeration of that
tree, which yields the walk root first. -/

mutual
inductive DirTree where
  | node (files : List String) (subs : DirForest)
inductive DirForest where
  | nil
  | cons (name : String) (tree : DirTree) (rest : DirForest)
end

def DirTree.files : DirTree → List String
  | .node fs _ => fs

def DirTree.subs : DirTree → DirForest
  | .node _ s => s

def DirForest.names : DirForest → List String
  | .nil => []
  | .cons n _ rest => n :: rest.names

def DirForest.find? : DirForest → String → Option DirTree
  | .nil, _ => none
  | .cons n t rest, c => if n = c then some t else rest.find? c

/-- A walk entry: the triple `(root_dir, subdir names, file names)` that
`os.walk` yields for one directory. -/
abbrev WalkEntry := String × List String × List String

mutual
/-- `os.walk(p)` over the modelled tree: top-down, the directory itself
first, then its subdirectories depth-first in order. -/
def walkDir (p : String) : DirTree → List WalkEntry
  | .node files subs => (p, subs.names, files) :: walkForest p subs

def walkForest (p : String) : DirForest → List WalkEntry
  | .nil => []
  | .cons n t rest => walkDir (p ++ "/" ++ n) t ++ walkForest p rest
end

/-- What an absolute path denotes in the modelled filesystem. -/
inductive ResolveResult where
  | dir (t : DirTree)
  | file
  | missing

/-- Follow a relative component path down the tree. -/
def navigate : DirTree → List String → ResolveResult
  | t, [] => .dir t
  | t, c :: rest =>
    match t.subs.find? c with
    | some t' => navigate t' rest
    | none => if rest = [] ∧ c ∈ t.files then .file else .missing

/-- Resolve an absolute path against the modelled filesystem, whose known
region is the subtree rooted at `anchor`.  Paths outside that region are
absent (the scenarios of interest place no files elsewhere). -/
def resolveUnder (anchor : String) (tree : DirTree) (path : String) : ResolveResult :=
  if path = anchor then .dir tree
  else if pyStartswith path (anchor ++ "/") then
    navigate tree
      ((splitOnChar '/' (path.data.drop (anchor.length + 1))).map fun l => (⟨l⟩ : String))
  else .missing

/-- `os.path.exists` over the modelled filesystem. -/
def pathExistsUnder (anchor : String) (tree : DirTree) (path : String) : Bool :=
  match resolveUnder anchor tree path with
  | .missing => false
  | _ => true

/-- The subtree `os.walk` would enumerate from `path`: `none` when the path
is a file or absent (`os.walk` then yields nothing). -/
def subtreeUnder (anchor : String) (tree : DirTree) (path : String) : Option DirTree :=
  match resolveUnder anchor tree path with
  | .dir t => some t
  | _ => none

/-! ### `TraverseByDepth` -/

/-- Python truthiness of the `include_extensions` argument: `None` and the
empty collection are both falsy. -/
def extTruthy : Option (List String) → Bool
  | none => false
  | some es => !es.isEmpty

/-- The `for root_dir, subdirs, file_list in os.walk(root)` loop of
`TraverseByDepth`, with the `is_root` flag explicit: the first yielded entry
(the root) only clears the flag; every later directory is added when the
extension filter is falsy, or when some file directly inside it has a
(lowercased, nonempty) extension in the filter.  The Python result is a
`set`; since `os.walk` yields each directory once, it is modelled as the
list of added directories in traversal order. -/
def traverseLoop (exts : Option (List String)) :
    List WalkEntry → Bool → List String
  | [], _ => []
  | _ :: rest, true => traverseLoop exts rest false
  | (root_dir, _, file_list) :: rest, false =>
    if extTruthy exts then
      let subdir_extensions := file_list.filterMap fun f =>
        let e := (splitext f).2
        if e ≠ "" then some (pyLower e) else none
      if subdir_extensions.any (fun e => (exts.getD []).contains e) then
        root_dir :: traverseLoop exts rest false
      else traverseLoop exts rest false
    else
      root_dir :: traverseLoop exts rest false

/-- `TraverseByDepth(root, include_extensions)`: lowercase the extension
filter when it is truthy, then run the walk loop.  `rootTree` is the subtree
`os.walk(root)` enumerates (`none` for a missing or non-directory root). -/
def TraverseByDepth (root : String) (rootTree : Option DirTree)
    (include_extensions : Option (List String)) : List String :=
  let include_extensions :=
    if extTruthy include_extensions then include_extensions.map (·.map pyLower)
    else include_extensions
  traverseLoop include_extensions
    (match rootTree with | some t => walkDir root t | none => []) true

/-! ### `GuessSourceDirectory` and `GuessIncludeDirectory` -/

/-- The `for candidate in guess_candidates` loop of `GuessSourceDirectory`. -/
def guessSourceLoop (anchor : String) (tree : DirTree) : List String → Except String String
  | [] => .error "Source directory cannot be guessed."
  | candidate :: rest =>
    let result := osPathJoin anchor candidate
    if pathExistsUnder anchor tree result then .ok result
    else guessSourceLoop anchor tree rest

/-- `GuessSourceDirectory()`: try `src`, `source`, `lib`, then the anchor's
own basename, each joined onto the anchor; return the first that exists
(file or directory); otherwise raise `OSError`. -/
def GuessSourceDirectory (anchor : String) (tree : DirTree) : Except String String :=
  guessSourceLoop anchor tree ["src", "source", "lib", pyBasename anchor]

/-- The `for external in ('include', 'includes')` loop of
`GuessIncludeDirectory`: on the first of the two names that exists under the
anchor, traverse it with no extension filter and stop. -/
def externalIncludeLoop (anchor : String) (tree : DirTree) : List String → List String
  | [] => []
  | external :: rest =>
    let external_include_path := osPathJoin anchor external
    if pathExistsUnder anchor tree external_include_path then
      TraverseByDepth external_include_path
        (subtreeUnder anchor tree external_include_path) none
    else externalIncludeLoop anchor tree rest

/-- `GuessIncludeDirectory()`: traverse the guessed source directory filtered
by `HEADER_EXTENSIONS` (an `OSError` from the guess is swallowed and leaves
that set empty), traverse the first existing `include`/`includes`
subdirectory with no filter, and emit every collected directory prefixed by
`-I`, source-derived directories first.  The Python `if include_dir_set:`
guards only skip appending an empty collection, which is a no-op for list
concatenation. -/
def GuessIncludeDirectory (anchor : String) (tree : DirTree) : List String :=
  let include_dir_set :=
    match GuessSourceDirectory anchor tree with
    | .ok sd =>
      let source_dir := osPathJoin anchor sd
      TraverseByDepth source_dir (subtreeUnder anchor tree source_dir)
        (some HEADER_EXTENSIONS)
    | .error _ => []
  let external_include_dir_set := externalIncludeLoop anchor tree ["include", "includes"]
  include_dir_set.map (fun include_dir => "-I" ++ include_dir) ++
    external_include_dir_set.map (fun include_dir => "-I" ++ include_dir)

/-! ### Spec-side formulations and scenario fixtures -/

/-- The specification's description of the header lookup (4.7), stated
directly: substitute each source extension onto the extension-stripped path,
keep the substituted paths that exist on disk and whose database record has a
non-empty flag list, and return the record of the first one.  Compared
against the loop `headerSearch` embedded from the code. -/
def specFirstQualifyingRecord (db : Database) (exists_ : String → Bool)
    (basename : String) : Option CompilationInfo :=
  (((SOURCE_EXTENSIONS.map fun ext => basename ++ ext).filter fun pth =>
      exists_ pth && !(db pth).compiler_flags_.isEmpty).head?).map db

/-- The hypothesis of the idempotence claim, stated over the token list with
the same one-bit lookahead the rewrite uses: every path value — the token
following a token that exactly equals a path flag, and the suffix of a token
that the inner loop splits at a path-flag prefix — begins with the path
separator.  A token carrying no path value constrains nothing. -/
def pathValuesAbsolute : List String → Bool → Bool
  | [], _ => true
  | f :: rest, afterExact =>
    (!afterExact || pyStartswith f "/") &&
    (match matchPathFlag path_flags f with
     | .split p => pyStartswith (pyDrop f p.length) "/"
     | _ => true) &&
    pathValuesAbsolute rest (decide (matchPathFlag path_flags f = .exact))

/-- Scenario B anchor contents: a single empty `include` subdirectory. -/
def treeScenarioB : DirTree := .node [] (.cons "include" (.node [] .nil) .nil)

/-- Scenario A anchor contents: a `src` subdirectory directly containing the
header `a.hpp`, and no `include`/`includes` folder. -/
def treeScenarioA : DirTree := .node [] (.cons "src" (.node ["a.hpp"] .nil) .nil)

/-- Variant of scenario A in which the header lives one level deeper, in
`src/sub`. -/
def treeScenarioASub : DirTree :=
  .node [] (.cons "src" (.node [] (.cons "sub" (.node ["a.hpp"] .nil) .nil)) .nil)

/-- Scenario D database: `foo.cpp` has a non-empty record, everything else
yields the empty record. -/
def dbScenarioD : Database := fun p =>
  if p = "foo.cpp" then ⟨["-DFOO"], "/proj"⟩ else ⟨[], ""⟩

/-- Scenario D disk contents: `foo.h`, `foo.cpp` and `foo.cc` all exist. -/
def existsScenarioD : String → Bool := fun p =>
  p == "foo.h" || p == "foo.cpp" || p == "foo.cc"

/-- A module state with no database handle, for exercising the static-flags
branch of `FlagsForFile`. -/
def stStatic : ModuleState :=
  { database := none
    fileExists := fun _ => false
    flags := ["-Wall", "-isystem", "/usr/include/c++"]
    system_includes := ["-isystem", "/usr/include/c++"]
    scriptDir := "/anchor" }

/-- A captured compiler output with the two search-list markers, one
framework-directory line and one blank line in the region. -/
def clangOutputSample : String :=
  "clang -cc1\n#include <...> search starts here:\n /usr/include\n /L (framework directory)\n\n /opt/x\nEnd of search list.\n"

/-! ## Helper lemmas -/

theorem pyStartswith_iff {s pre : String} : pyStartswith s pre = true ↔ pre.data <+: s.data := by
  simp [pyStartswith]

/-- A prefix followed by the matching drop restores the original string. -/
theorem append_pyDrop_of_startswith {f p : String} (h : pyStartswith f p = true) :
    p ++ pyDrop f p.length = f := by
  rw [pyStartswith_iff] at h
  obtain ⟨t, ht⟩ := h
  apply String.ext
  rw [String.data_append]
  show p.data ++ f.data.drop p.data.length = f.data
  rw [← ht, List.drop_left]

/-- A split outcome of the inner loop records a genuine prefix. -/
theorem matchPathFlag_split_startswith :
    ∀ (l : List String) (flag p : String), matchPathFlag l flag = .split p →
      pyStartswith flag p = true := by
  intro l
  induction l with
  | nil => intro flag p h; simp [matchPathFlag] at h
  | cons q rest ih =>
    intro flag p h
    by_cases h1 : flag = q
    · simp [matchPathFlag, h1] at h
    · by_cases h2 : pyStartswith flag q = true
      · simp [matchPathFlag, h1, h2] at h
        exact h ▸ h2
      · simp [matchPathFlag, h1, h2] at h
        exact ih flag p h

/-! ## C1 — an empty explicit `include` folder

Tracing the code: `GuessSourceDirectory` fails (nothing named `src`,
`source`, `lib` or the anchor basename exists), so the source-derived set is
empty; `include` exists, and `TraverseByDepth(<anchor>/include, None)` walks
the empty directory — but `TraverseByDepth` skips the first entry `os.walk`
yields, which is the walk root itself, so the set comes back empty and the
guess returns `[]`, not `["-I/anchor/include"]`.  This contradicts
`GuessIncludeDirectory`'s own docstring, which promises that an existing
`include`/`includes` directory is itself added to the result. -/

/-- C1: evaluating the embedded code on the failing input — an anchor whose
only content is an empty `include` subdirectory — yields the empty flag
list, not `["-I/anchor/include"]`. -/
theorem emptyIncludeFolderYieldsNoFlags :
    GuessIncludeDirectory "/anchor" treeScenarioB = [] ∧
      ["-I/anchor/include"] ≠ ([] : List String) := by
  exact ⟨rfl, by decide⟩

/-! ## C2 — `src` directly containing a header

Same mechanism: `GuessSourceDirectory` returns `<anchor>/src`, but
`TraverseByDepth` excludes the traversal root, so a header directly inside
`src` qualifies no directory and the guess returns `[]`.  Only proper
subdirectories of `src` that contain header files are emitted. -/

/-- C2 counterexample: on the claimed scenario the include guess returns a
list different from the claimed `["-I/anchor/src"]`. -/
theorem srcWithHeaderCounterexample :
    GuessIncludeDirectory "/anchor" treeScenarioA ≠ ["-I/anchor/src"] := by
  decide

/-- C2 as amended: with `src` directly containing `a.hpp` the guess returns
`[]`, because the traversal excludes its root `src`; a header one level
deeper, in `src/sub`, makes the guess return exactly
`["-I/anchor/src/sub"]`. -/
theorem includeGuessExcludesTraversalRoot :
    GuessIncludeDirectory "/anchor" treeScenarioA = [] ∧
      GuessIncludeDirectory "/anchor" treeScenarioASub = ["-I/anchor/src/sub"] := by
  exact ⟨rfl, rfl⟩

/-! ## C6 — the two rewrite rules are mutually exclusive -/

/-- C6: a token that exactly equals one of the four path flags always takes
the lookahead (exact) branch of the inner loop, a token the loop splits is
never one of the path flags, and the split rewrite is computed from the
original token irrespective of the incoming lookahead state — so no token's
emitted form combines both transformations. -/
theorem pathFlagRulesMutuallyExclusive (flag : String) :
    (flag ∈ path_flags → matchPathFlag path_flags flag = .exact) ∧
    (∀ p, matchPathFlag path_flags flag = .split p → flag ∉ path_flags) ∧
    (∀ (wd : String) (rest : List String) (m : Bool) (p : String),
      matchPathFlag path_flags flag = .split p →
        mrpifaGo wd (flag :: rest) m =
          consIfNonempty (p ++ osPathJoin wd (pyDrop flag p.length)) (mrpifaGo wd rest false)) := by
  refine ⟨?_, ?_, ?_⟩
  · intro hmem
    fin_cases hmem <;> decide
  · intro p hsplit hmem
    have hex : matchPathFlag path_flags flag = .exact := by
      fin_cases hmem <;> decide
    rw [hex] at hsplit
    exact FlagMatch.noConfusion hsplit
  · intro wd rest m p hsplit
    simp only [mrpifaGo, hsplit]

/-- Closed witness for C6: `-I` takes the exact branch, and the token
`-Ifoo` is split from its original form even when the lookahead bit is set. -/
theorem pathFlagRulesMutuallyExclusive_witness :
    matchPathFlag path_flags "-I" = .exact ∧
      mrpifaGo "/w" ["-Ifoo"] true =
        consIfNonempty ("-I" ++ osPathJoin "/w" (pyDrop "-Ifoo" "-I".length))
          (mrpifaGo "/w" [] false) := by
  exact ⟨(pathFlagRulesMutuallyExclusive "-I").1 (by decide),
    (pathFlagRulesMutuallyExclusive "-Ifoo").2.2 "/w" [] true "-I" (by decide)⟩

/-! ## C7 — idempotence on already-absolute inputs -/

/-- C7 counterexample: the list `[""]` has no path value at all, so the
claim's hypothesis holds vacuously, yet the rewrite drops the empty token
instead of returning the list unchanged. -/
theorem absoluteRewriteEmptyTokenCex :
    pathValuesAbsolute [""] false = true ∧
      MakeRelativePathsInFlagsAbsolute [""] "/wd" ≠ [""] := by
  decide

/-- The scan is the identity on a list of nonempty tokens whose path values
are all absolute, for any state of the lookahead bit consistent with the
predicate. -/
theorem mrpifaGo_fixed_of_absolute (wd : String) :
    ∀ (l : List String) (m : Bool), (∀ f ∈ l, f ≠ "") →
      pathValuesAbsolute l m = true → mrpifaGo wd l m = l := by
  intro l
  induction l with
  | nil => intro m _ _; rfl
  | cons f rest ih =>
    intro m hne habs
    rw [pathValuesAbsolute] at habs
    simp only [Bool.and_eq_true] at habs
    obtain ⟨⟨h1, h2⟩, h3⟩ := habs
    have hf : f ≠ "" := hne f (List.mem_cons_self f rest)
    have hrest : ∀ g ∈ rest, g ≠ "" := fun g hg => hne g (List.mem_cons_of_mem f hg)
    have hnf1 : ∀ m' : Bool, (!m' || pyStartswith f "/") = true →
        (if m' && !pyStartswith f "/" then osPathJoin wd f else f) = f := by
      intro m' hm'
      cases m' with
      | false => simp
      | true => simp at hm'; simp [hm']
    cases hm : matchPathFlag path_flags f with
    | exact =>
      rw [hm] at h3
      have h3' : pathValuesAbsolute rest true = true := by
        simpa using h3
      simp only [mrpifaGo, hm, hnf1 m h1, consIfNonempty, if_neg hf]
      rw [ih true hrest h3']
    | split p =>
      have hpre : pyStartswith f p = true := matchPathFlag_split_startswith _ _ _ hm
      rw [hm] at h2 h3
      have hsuf : pyStartswith (pyDrop f p.length) "/" = true := by
        simpa using h2
      have h3' : pathValuesAbsolute rest false = true := by
        rw [decide_eq_false (fun hc => FlagMatch.noConfusion hc)] at h3
        exact h3
      have hjoin : osPathJoin wd (pyDrop f p.length) = pyDrop f p.length := by
        rw [osPathJoin, if_pos hsuf]
      have hemit : p ++ osPathJoin wd (pyDrop f p.length) = f := by
        rw [hjoin]; exact append_pyDrop_of_startswith hpre
      simp only [mrpifaGo, hm, hemit, consIfNonempty, if_neg hf]
      rw [ih false hrest h3']
    | noMatch =>
      rw [hm] at h3
      have h3' : pathValuesAbsolute rest false = true := by
        rw [decide_eq_false (fun hc => FlagMatch.noConfusion hc)] at h3
        exact h3
      simp only [mrpifaGo, hm, hnf1 m h1, consIfNonempty, if_neg hf]
      rw [ih false hrest h3']

/-- C7 as amended: for every working directory, rewriting a flag list of
nonempty tokens whose path values all begin with the path separator returns
it unchanged.  (The nonemptiness proviso is forced by the counterexample:
a bare empty token is silently dropped.) -/
theorem absoluteRewriteIdempotent (wd : String) (flags : List String)
    (hne : ∀ f ∈ flags, f ≠ "") (habs : pathValuesAbsolute flags false = true) :
    MakeRelativePathsInFlagsAbsolute flags wd = flags := by
  rw [MakeRelativePathsInFlagsAbsolute]
  by_cases hwd : wd = ""
  · rw [if_pos hwd]
  · rw [if_neg hwd]
    exact mrpifaGo_fixed_of_absolute wd flags false hne habs

/-- Closed witness for C7: both rule forms and a plain token, all with
absolute path values, are returned unchanged. -/
theorem absoluteRewriteIdempotent_witness :
    MakeRelativePathsInFlagsAbsolute ["-I/usr/include", "-isystem", "/usr/lib", "-Wall"] "/work"
      = ["-I/usr/include", "-isystem", "/usr/lib", "-Wall"] :=
  absoluteRewriteIdempotent "/work" ["-I/usr/include", "-isystem", "/usr/lib", "-Wall"]
    (by decide) (by decide)

/-! ## C9 — dropping of tokens whose rewritten form is falsy -/

/-- C9 counterexample: the empty token right after an exact `-I` is the
pending lookahead's operand; it is rewritten to `os.path.join("/w", "") =
"/w/"` and kept, so an empty input token is not always omitted and the
output is as long as the input. -/
theorem emptyTokenAfterPathFlagCex :
    MakeRelativePathsInFlagsAbsolute ["-I", ""] "/w" = ["-I", "/w/"] ∧
      (MakeRelativePathsInFlagsAbsolute ["-I", ""] "/w").length = 2 := by
  decide

/-- `consIfNonempty` never introduces the empty string. -/
theorem consIfNonempty_not_mem_empty (s : String) (l : List String)
    (h : ("" : String) ∉ l) : ("" : String) ∉ consIfNonempty s l := by
  unfold consIfNonempty
  split
  · exact h
  · next hs =>
    intro hm
    rcases List.mem_cons.mp hm with h1 | h1
    · exact hs h1.symm
    · exact h h1

/-- `consIfNonempty` adds at most one element. -/
theorem consIfNonempty_length (s : String) (l : List String) :
    (consIfNonempty s l).length ≤ l.length + 1 := by
  unfold consIfNonempty
  split
  · exact Nat.le_succ _
  · exact Nat.le_refl _

/-- The scan never emits an empty token: the final `if new_flag:` filter
drops every falsy rewritten form. -/
theorem mrpifaGo_not_mem_empty (wd : String) :
    ∀ (l : List String) (m : Bool), ("" : String) ∉ mrpifaGo wd l m := by
  intro l
  induction l with
  | nil => intro m; simp [mrpifaGo]
  | cons f rest ih =>
    intro m
    cases hm : matchPathFlag path_flags f <;>
      simp only [mrpifaGo, hm] <;>
      exact consIfNonempty_not_mem_empty _ _ (ih _)

/-- Each input token contributes at most one output token. -/
theorem mrpifaGo_length_le (wd : String) :
    ∀ (l : List String) (m : Bool), (mrpifaGo wd l m).length ≤ l.length := by
  intro l
  induction l with
  | nil => intro m; simp [mrpifaGo]
  | cons f rest ih =>
    intro m
    cases hm : matchPathFlag path_flags f <;>
      simp only [mrpifaGo, hm] <;>
      exact Nat.le_trans (consIfNonempty_length _ _) (Nat.succ_le_succ (ih _))

/-- C9 as amended: with a non-empty working directory the rewrite silently
drops every token whose rewritten form is falsy — the output never contains
an empty token, and a standalone empty token (one not following an exact
path flag) is omitted outright — so the output can be shorter than the
input; with an empty working directory the input comes back unchanged,
empty tokens included.  (An empty token right after an exact path flag is
instead rewritten to `join(wd, "")` and kept, per the counterexample.) -/
theorem rewriteDropsFalsyTokens (flags : List String) (wd : String) :
    (wd ≠ "" → ("" : String) ∉ MakeRelativePathsInFlagsAbsolute flags wd) ∧
    (wd ≠ "" → MakeRelativePathsInFlagsAbsolute ("" :: flags) wd =
      MakeRelativePathsInFlagsAbsolute flags wd) ∧
    (MakeRelativePathsInFlagsAbsolute flags wd).length ≤ flags.length ∧
    MakeRelativePathsInFlagsAbsolute flags "" = flags := by
  refine ⟨?_, ?_, ?_, ?_⟩
  · intro hwd
    rw [MakeRelativePathsInFlagsAbsolute, if_neg hwd]
    exact mrpifaGo_not_mem_empty wd flags false
  · intro hwd
    rw [MakeRelativePathsInFlagsAbsolute, if_neg hwd,
      MakeRelativePathsInFlagsAbsolute, if_neg hwd]
    rfl
  · rw [MakeRelativePathsInFlagsAbsolute]
    by_cases hwd : wd = ""
    · rw [if_pos hwd]
    · rw [if_neg hwd]
      exact mrpifaGo_length_le wd flags false
  · rw [MakeRelativePathsInFlagsAbsolute, if_pos rfl]

/-- Closed witness for C9: output of `["-Wall", ""]` against `/w` contains
no empty token, and a leading empty token is dropped. -/
theorem rewriteDropsFalsyTokens_witness :
    ("" : String) ∉ MakeRelativePathsInFlagsAbsolute ["-Wall", ""] "/w" ∧
      MakeRelativePathsInFlagsAbsolute ("" :: ["-Wall"]) "/w" =
        MakeRelativePathsInFlagsAbsolute ["-Wall"] "/w" :=
  ⟨(rewriteDropsFalsyTokens ["-Wall", ""] "/w").1 (by decide),
   (rewriteDropsFalsyTokens ["-Wall"] "/w").2.1 (by decide)⟩

/-! ## C8 — system include extraction -/

/-- A string has positive length exactly when it is nonempty. -/
theorem decide_length_pos_eq_decide_ne_empty (p : String) :
    decide (p.length > 0) = decide (p ≠ "") := by
  rw [decide_eq_decide]
  show 0 < p.data.length ↔ p ≠ ""
  rw [List.length_pos]
  constructor
  · intro hd hp; exact hd (by rw [hp])
  · intro hp hd; exact hp (String.ext hd)

/-- The accumulation loop over the region's lines equals its
map/filter/flatMap description. -/
theorem includesLoop_eq_spec :
    ∀ lines : List String, includesLoop lines =
      ((lines.map pyStrip).filter fun p =>
        decide (p ≠ "") && !pyContains p "(framework directory)").flatMap
        fun p => ["-isystem", p] := by
  intro lines
  induction lines with
  | nil => rfl
  | cons line rest ih =>
    rw [includesLoop, List.map_cons, List.filter_cons]
    rw [decide_length_pos_eq_decide_ne_empty (pyStrip line)]
    by_cases hc : (decide (pyStrip line ≠ "") && !pyContains (pyStrip line) "(framework directory)") = true
    · rw [if_pos hc, if_pos hc, List.flatMap_cons, ih]
      rfl
    · rw [if_neg hc, if_neg hc, ih]

/-- C8: for every compiler output in which the search-marker region is
found, `LoadSystemIncludes` returns exactly the following: each line of the
region (split at newlines) is stripped; blank lines and lines containing the
literal `(framework directory)` are excluded; every surviving path is
emitted as the token pair `-isystem`, path, in line order. -/
theorem loadSystemIncludesSpec (output region : String)
    (h : extractSearchList output = some region) :
    LoadSystemIncludes output =
      some ((((splitOnChar '\n' region.data).map fun l => pyStrip ⟨l⟩).filter
        (fun p => decide (p ≠ "") && !pyContains p "(framework directory)")).flatMap
        fun p => ["-isystem", p]) := by
  rw [LoadSystemIncludes, h, Option.map_some']
  rw [includesLoop_eq_spec, List.map_map]
  rfl

/-- Closed witness for C8 on a sample clang output: the region is found and
the two usable paths are emitted as `-isystem` pairs, the framework line and
the blank line dropped. -/
theorem loadSystemIncludesSpec_witness :
    LoadSystemIncludes clangOutputSample =
        some ["-isystem", "/usr/include", "-isystem", "/opt/x"] ∧
      extractSearchList clangOutputSample =
        some "\n /usr/include\n /L (framework directory)\n\n /opt/x\n" := by
  have h : extractSearchList clangOutputSample =
      some "\n /usr/include\n /L (framework directory)\n\n /opt/x\n" := by decide
  refine ⟨?_, h⟩
  rw [loadSystemIncludesSpec clangOutputSample _ h]
  decide

/-! ## C3 — the build directory guess -/

/-- C3: `GuessBuildDirectory` returns `<anchor>/build` whenever it exists,
regardless of the glob matches; otherwise the parent of the unique glob
match for `<anchor>/../../*/compile_commands.json`; and it fails exactly
when `build` is absent and the number of matches is not one. -/
theorem guessBuildDirectorySpec (anchor : String) (exists_ : String → Bool)
    (globMatches : List String) :
    (exists_ (osPathJoin anchor "build") = true →
      GuessBuildDirectory anchor exists_ globMatches = .ok (osPathJoin anchor "build")) ∧
    (exists_ (osPathJoin anchor "build") = false → ∀ m, globMatches = [m] →
      GuessBuildDirectory anchor exists_ globMatches = .ok (ospathSplit m).1) ∧
    (GuessBuildDirectory anchor exists_ globMatches =
        .error "Build directory cannot be guessed." ↔
      exists_ (osPathJoin anchor "build") = false ∧ globMatches.length ≠ 1) := by
  refine ⟨?_, ?_, ?_⟩
  · intro h
    unfold GuessBuildDirectory
    rw [if_pos h]
  · intro h m hm
    subst hm
    unfold GuessBuildDirectory
    rw [if_neg (by simp [h])]
  · by_cases h : exists_ (osPathJoin anchor "build") = true
    · unfold GuessBuildDirectory
      rw [if_pos h]
      simp [h]
    · have h' : exists_ (osPathJoin anchor "build") = false := by
        simpa using h
      unfold GuessBuildDirectory
      rw [if_neg (by simp [h'])]
      rcases globMatches with _ | ⟨m, _ | ⟨m2, t⟩⟩ <;> simp [h']

/-- Closed witness for C3: all three behaviors at concrete inputs. -/
theorem guessBuildDirectorySpec_witness :
    GuessBuildDirectory "/anchor" (fun _ => true) ["a", "b"] =
        .ok (osPathJoin "/anchor" "build") ∧
      GuessBuildDirectory "/anchor" (fun _ => false)
          ["/anchor/../../x/compile_commands.json"] =
        .ok (ospathSplit "/anchor/../../x/compile_commands.json").1 ∧
      GuessBuildDirectory "/anchor" (fun _ => false) [] =
        .error "Build directory cannot be guessed." :=
  ⟨(guessBuildDirectorySpec "/anchor" (fun _ => true) ["a", "b"]).1 rfl,
   (guessBuildDirectorySpec "/anchor" (fun _ => false)
      ["/anchor/../../x/compile_commands.json"]).2.1 rfl _ rfl,
   (guessBuildDirectorySpec "/anchor" (fun _ => false) []).2.2.mpr ⟨rfl, by decide⟩⟩

/-! ## C4 — header lookup by source-extension substitution -/

/-- `splitext` splits the string: stem and extension concatenate back to it. -/
theorem splitext_concat (p : String) : (splitext p).1 ++ (splitext p).2 = p := by
  have hempty : ∀ s : String, s ++ "" = s := by
    intro s; apply String.ext; rw [String.data_append]; exact List.append_nil _
  unfold splitext
  cases h : rfindChar p.data '.' with
  | none => exact hempty p
  | some dot =>
    dsimp only
    split
    · apply String.ext
      rw [String.data_append]
      exact List.take_append_drop dot p.data
    · exact hempty p

/-- The substitution loop equals the specification's first-qualifying-record
description. -/
theorem headerSearch_eq_spec (db : Database) (ex : String → Bool) (base : String) :
    ∀ exts : List String,
      headerSearch db ex base exts =
        (((exts.map fun e => base ++ e).filter fun pth =>
            ex pth && !(db pth).compiler_flags_.isEmpty).head?).map db := by
  intro exts
  induction exts with
  | nil => rfl
  | cons e rest ih =>
    rw [headerSearch, List.map_cons, List.filter_cons]
    by_cases hex : ex (base ++ e) = true
    · by_cases hfl : (db (base ++ e)).compiler_flags_ = []
      · simp [hex, hfl, ih]
      · simp [hex, hfl]
    · have hex' : ex (base ++ e) = false := by simpa using hex
      simp [hex', ih]

/-- The substitution loop only consults the database at the substituted
paths. -/
theorem headerSearch_congr (db1 db2 : Database) (ex : String → Bool) (base : String) :
    ∀ exts : List String, (∀ e ∈ exts, db1 (base ++ e) = db2 (base ++ e)) →
      headerSearch db1 ex base exts = headerSearch db2 ex base exts := by
  intro exts
  induction exts with
  | nil => intro _; rfl
  | cons e rest ih =>
    intro hagree
    rw [headerSearch, headerSearch]
    rw [hagree e (List.mem_cons_self e rest)]
    rw [ih fun g hg => hagree g (List.mem_cons_of_mem e hg)]

/-- No source-extension substitution onto a header's stem reproduces the
header path itself: the lowercased header extension is in
`HEADER_EXTENSIONS`, which is disjoint from `SOURCE_EXTENSIONS`. -/
theorem source_ext_not_header {filename : String} (h : IsHeaderFile filename = true) :
    ∀ e ∈ SOURCE_EXTENSIONS, (splitext filename).1 ++ e ≠ filename := by
  intro e he hcontra
  have hsplit := splitext_concat filename
  have heq : (splitext filename).1 ++ e =
      (splitext filename).1 ++ (splitext filename).2 := by
    rw [hcontra, hsplit]
  have he2 : e = (splitext filename).2 := by
    apply String.ext
    have hd := congrArg String.data heq
    rw [String.data_append, String.data_append] at hd
    exact List.append_cancel_left hd
  rw [IsHeaderFile, ← he2] at h
  fin_cases he <;> exact absurd h (by decide)

/-- C4: for a filename that classifies as a header, the database lookup
returns the record of the first substituted path (source extensions tried in
their fixed order on the extension-stripped stem) that exists on disk and
has a non-empty flag list, `none` when no substitution qualifies — and it is
insensitive to the database's entry at the header path itself, which is
never queried. -/
theorem headerLookupUsesSourceSubstitution (db : Database) (ex : String → Bool)
    (filename : String) (h : IsHeaderFile filename = true) :
    GetCompilationInfoForFile (some db) ex filename =
      specFirstQualifyingRecord db ex (splitext filename).1 ∧
    ∀ junk : CompilationInfo,
      GetCompilationInfoForFile (some (Function.update db filename junk)) ex filename =
        GetCompilationInfoForFile (some db) ex filename := by
  constructor
  · unfold GetCompilationInfoForFile
    dsimp only
    rw [if_pos h, specFirstQualifyingRecord]
    exact headerSearch_eq_spec db ex (splitext filename).1 SOURCE_EXTENSIONS
  · intro junk
    unfold GetCompilationInfoForFile
    dsimp only
    rw [if_pos h, if_pos h]
    apply headerSearch_congr
    intro e he
    exact Function.update_noteq (source_ext_not_header h e he) junk db

/-- Closed witness for C4, scenario D: `foo.h` requested, `foo.cpp` and
`foo.cc` both exist, `foo.cpp` carries the non-empty record — resolution
uses the `foo.cpp` record because `.cpp` precedes `.cc`. -/
theorem headerLookupUsesSourceSubstitution_witness :
    GetCompilationInfoForFile (some dbScenarioD) existsScenarioD "foo.h" =
        specFirstQualifyingRecord dbScenarioD existsScenarioD (splitext "foo.h").1 ∧
      GetCompilationInfoForFile (some dbScenarioD) existsScenarioD "foo.h" =
        some ⟨["-DFOO"], "/proj"⟩ :=
  ⟨(headerLookupUsesSourceSubstitution dbScenarioD existsScenarioD "foo.h" (by decide)).1,
   by decide⟩

/-! ## C5 — `FlagsForFile` returns `none` exactly on a failed lookup -/

/-- C5: the per-file resolution (a total function — the embedding returns
`Option`, never raising) yields `none` exactly when a database handle is
present and the database lookup yields `none`; in every other case it
returns a populated result. -/
theorem flagsForFileNoneIff (st : ModuleState) (filename : String) :
    FlagsForFile st filename = none ↔
      st.database.isSome = true ∧
        GetCompilationInfoForFile st.database st.fileExists filename = none := by
  cases hdb : st.database with
  | none =>
    simp [FlagsForFile, hdb]
  | some db =>
    cases hci : GetCompilationInfoForFile (some db) st.fileExists filename with
    | none => simp [FlagsForFile, hdb, hci]
    | some ci => simp [FlagsForFile, hdb, hci]

/-- Closed instance of C5 at a concrete state without a database. -/
theorem flagsForFileNoneIff_witness :
    FlagsForFile stStatic "x.cpp" = none ↔
      stStatic.database.isSome = true ∧
        GetCompilationInfoForFile stStatic.database stStatic.fileExists "x.cpp" = none :=
  flagsForFileNoneIff stStatic "x.cpp"

/-! ## C10 — every non-null result carries `do_cache = True` -/

/-- C10: whenever `FlagsForFile` returns a result, its `do_cache` field is
`true` — the host is always told to memoize. -/
theorem flagsForFileAlwaysCaches (st : ModuleState) (filename : String)
    (r : FlagsResult) (h : FlagsForFile st filename = some r) : r.do_cache = true := by
  cases hdb : st.database with
  | none =>
    simp only [FlagsForFile, hdb, Option.some.injEq] at h
    rw [← h]
  | some db =>
    cases hci : GetCompilationInfoForFile (some db) st.fileExists filename with
    | none =>
      simp only [FlagsForFile, hdb, hci] at h
      exact Option.noConfusion h
    | some ci =>
      simp only [FlagsForFile, hdb, hci, Option.some.injEq] at h
      rw [← h]

/-- Closed witness for C10 at the static-flags state. -/
theorem flagsForFileAlwaysCaches_witness :
    FlagsForFile stStatic "x.cpp" =
        some ⟨["-Wall", "-isystem", "/usr/include/c++"], true⟩ ∧
      FlagsResult.do_cache ⟨["-Wall", "-isystem", "/usr/include/c++"], true⟩ = true := by
  have h : FlagsForFile stStatic "x.cpp" =
      some ⟨["-Wall", "-isystem", "/usr/include/c++"], true⟩ := by decide
  exact ⟨h, flagsForFileAlwaysCaches stStatic "x.cpp" _ h⟩

end Ycm
